import Mathlib

/-!
Shallow embedding of src/downloadDocuments.py (Selfhosted-RAG-Pipeline).

The script crawls SharePoint sites via the Graph API
(site -> document library -> folder tree -> files), downloads file
content, extracts text by file-suffix dispatch, builds one metadata
record per file and writes it locally.  Remote HTTP calls and the
third-party format parsers (pdfplumber, python-docx, python-pptx,
openpyxl, xlrd) are external collaborators: they are modelled as
oracle functions returning `Except`, where `.error` stands for a
raised exception at that call site.  Pure Python string and list
manipulation is translated directly.
-/

namespace RagPipeline

/-- Python bytes value: a list of byte values. -/
abbrev Bytes := List Nat

/-- One character of Python str.lower restricted to ASCII: uppercase
ASCII letters are shifted by 32, everything else is unchanged.  (Python
str.lower also folds non-ASCII cased letters; the claims only exercise
ASCII data.) -/
def pyLowerChar (c : Char) : Char :=
  if h : 65 ≤ c.toNat ∧ c.toNat ≤ 90 then
    Char.ofNatAux (c.toNat + 32) (Or.inl (by omega))
  else c

/-- Python str.lower, character by character. -/
def pyLower (s : String) : String :=
  String.mk (s.data.map pyLowerChar)

/-- The code points Python str.strip treats as whitespace
(characters with str.isspace true). -/
def isPySpace (c : Char) : Bool :=
  c.toNat ∈ ([9, 10, 11, 12, 13, 28, 29, 30, 31, 32, 133, 160, 5760,
    8192, 8193, 8194, 8195, 8196, 8197, 8198, 8199, 8200, 8201, 8202,
    8232, 8233, 8239, 8287, 12288] : List Nat)

/-- Python str.strip on a character list: drop whitespace from both ends. -/
def pyStripList (l : List Char) : List Char :=
  ((l.dropWhile isPySpace).reverse.dropWhile isPySpace).reverse

/-- Python str.strip. -/
def pyStrip (s : String) : String :=
  String.mk (pyStripList s.data)

/-- Python s.split on a one-character separator, keeping empty pieces:
the result is always nonempty.  Models str.split with an explicit
separator argument, specialised to the dot. -/
def splitOnDot : List Char → List (List Char)
  | [] => [[]]
  | c :: cs =>
    match splitOnDot cs with
    | [] => [[]]
    | h :: t => if c = '.' then [] :: h :: t else (c :: h) :: t

/-- Python name.split with a dot, last element: the suffix after the
last dot (the whole string when no dot occurs). -/
def pySplitDotLast (s : String) : String :=
  String.mk ((splitOnDot s.data).getLastD [])

/-- Python: the dot character occurring in a string (the `in` test of
build_metadata). -/
def containsDot (s : String) : Bool :=
  s.data.contains '.'

/-- Is b a UTF-8 continuation byte. -/
def isContByte (b : Nat) : Prop := 128 ≤ b ∧ b ≤ 191

instance (b : Nat) : Decidable (isContByte b) := by
  unfold isContByte; infer_instance

/-- CPython incremental UTF-8 decoder with a configurable error
handler: onErr is emitted once per invalid maximal subpart (W3C
maximal-subpart policy, which CPython implements).  errors=ignore is
onErr = [] and errors=replace is onErr = [U+FFFD].  Invalid lead
bytes, stray continuation bytes and invalid successors consume one
byte; a valid multi-byte head whose later continuation byte is bad or
missing consumes only the valid head sequence.  The Nat argument is
recursion fuel: every recursive call consumes at least one byte and
one unit of fuel, so fuel equal to the byte count (as supplied by the
wrappers below) never runs out. -/
def utf8DecodeFuel (onErr : List Char) : Nat → Bytes → List Char
  | 0, _ => []
  | _ + 1, [] => []
  | fuel + 1, b0 :: rest =>
    if h1 : b0 < 128 then
      Char.ofNatAux b0 (Or.inl (by omega)) :: utf8DecodeFuel onErr fuel rest
    else if h2 : 194 ≤ b0 ∧ b0 ≤ 223 then
      match rest with
      | b1 :: rest2 =>
        if hc : isContByte b1 then
          Char.ofNatAux ((b0 - 192) * 64 + (b1 - 128))
              (Or.inl (by unfold isContByte at hc; omega)) ::
            utf8DecodeFuel onErr fuel rest2
        else onErr ++ utf8DecodeFuel onErr fuel (b1 :: rest2)
      | [] => onErr
    else if h3 : 224 ≤ b0 ∧ b0 ≤ 239 then
      match rest with
      | b1 :: rest2 =>
        if hc1 : (b0 = 224 ∧ 160 ≤ b1 ∧ b1 ≤ 191) ∨
                 (225 ≤ b0 ∧ b0 ≤ 236 ∧ isContByte b1) ∨
                 (b0 = 237 ∧ 128 ≤ b1 ∧ b1 ≤ 159) ∨
                 (238 ≤ b0 ∧ b0 ≤ 239 ∧ isContByte b1) then
          match rest2 with
          | b2 :: rest3 =>
            if hc2 : isContByte b2 then
              Char.ofNatAux ((b0 - 224) * 4096 + (b1 - 128) * 64 + (b2 - 128))
                  (by
                    unfold isContByte at hc1 hc2
                    rcases hc1 with h | h | h | h
                    · exact Or.inl (by omega)
                    · exact Or.inl (by omega)
                    · exact Or.inl (by omega)
                    · exact Or.inr (by omega)) ::
                utf8DecodeFuel onErr fuel rest3
            else onErr ++ utf8DecodeFuel onErr fuel (b2 :: rest3)
          | [] => onErr
        else onErr ++ utf8DecodeFuel onErr fuel (b1 :: rest2)
      | [] => onErr
    else if h4 : 240 ≤ b0 ∧ b0 ≤ 244 then
      match rest with
      | b1 :: rest2 =>
        if hc1 : (b0 = 240 ∧ 144 ≤ b1 ∧ b1 ≤ 191) ∨
                 (241 ≤ b0 ∧ b0 ≤ 243 ∧ isContByte b1) ∨
                 (b0 = 244 ∧ 128 ≤ b1 ∧ b1 ≤ 143) then
          match rest2 with
          | b2 :: rest3 =>
            if hc2 : isContByte b2 then
              match rest3 with
              | b3 :: rest4 =>
                if hc3 : isContByte b3 then
                  Char.ofNatAux
                      ((b0 - 240) * 262144 + (b1 - 128) * 4096 +
                        (b2 - 128) * 64 + (b3 - 128))
                      (by
                        unfold isContByte at hc1 hc2 hc3
                        rcases hc1 with h | h | h
                        · exact Or.inr (by omega)
                        · exact Or.inr (by omega)
                        · exact Or.inr (by omega)) ::
                    utf8DecodeFuel onErr fuel rest4
                else onErr ++ utf8DecodeFuel onErr fuel (b3 :: rest4)
              | [] => onErr
            else onErr ++ utf8DecodeFuel onErr fuel (b2 :: rest3)
          | [] => onErr
        else onErr ++ utf8DecodeFuel onErr fuel (b1 :: rest2)
      | [] => onErr
    else onErr ++ utf8DecodeFuel onErr fuel rest

/-- Python bytes.decode with utf-8 and errors=ignore: each invalid
maximal subpart is dropped. -/
def utf8DecodeIgnore (bs : Bytes) : List Char :=
  utf8DecodeFuel [] bs.length bs

/-- Python bytes.decode with utf-8 and errors=replace: each invalid
maximal subpart becomes one U+FFFD replacement character.  This is the
behavior the specification text describes; the source uses ignore. -/
def utf8DecodeReplace (bs : Bytes) : List Char :=
  utf8DecodeFuel [Char.ofNatAux 65533 (Or.inr (by omega))] bs.length bs

/-!
FormatExtractor: extract_text (source lines 204-283).  The third-party
parsers are oracle functions; `.error` models an exception raised by
the library call, which the surrounding try/except in extract_text
turns into a None result.
-/

/-- Oracle results of the third-party format parsers, at the
granularity the source consumes them: pdf page texts (None when a page
yields no text), docx paragraph texts, pptx slides as shapes (None for
a shape without a text frame, otherwise its paragraph texts), and
spreadsheet workbooks as sheets of (name, rows of optional
string-converted cell values). -/
structure Parsers where
  pdfPages : Bytes → Except String (List (Option String))
  docxParagraphs : Bytes → Except String (List String)
  pptxSlides : Bytes → Except String (List (List (Option (List String))))
  xlsxSheets : Bytes → Except String (List (String × List (List (Option String))))
  xlsSheets : Bytes → Except String (List (String × List (List (Option String))))

/-- PDF branch body: accumulate page text plus newline for every page
whose extracted text is truthy (present and nonempty). -/
def pdfConcat (pages : List (Option String)) : String :=
  pages.foldl
    (fun text t =>
      match t with
      | some s => if s = "" then text else text ++ s ++ "\n"
      | none => text) ""

/-- PPTX branch body: flatten slides, keep shapes that carry a text
frame, and collect their paragraph texts in order. -/
def pptxTexts (slides : List (List (Option (List String)))) : List String :=
  slides.flatten.foldl
    (fun acc shape =>
      match shape with
      | some ps => acc ++ ps
      | none => acc) []

/-- Spreadsheet branch body, one sheet: a bracketed sheet-name marker
line, one comma-joined line per row (None cell renders as empty
string), and a trailing empty line. -/
def sheetLines (sheet : String × List (List (Option String))) : List String :=
  ("[" ++ sheet.1 ++ "]") ::
    sheet.2.map (fun row =>
      String.intercalate "," (row.map (fun v =>
        match v with
        | none => ""
        | some s => s))) ++ [""]

/-- Spreadsheet branch body: all sheets rendered and newline-joined. -/
def sheetsText (sheets : List (String × List (List (Option String)))) : String :=
  String.intercalate "\n" (sheets.map sheetLines).flatten

/-- extract_text (source lines 204-283).  Dispatch key: the suffix
after the last dot of the lower-cased name.  Every branch sits inside
one try/except, so a parser oracle error yields none.  The legacy xls
branch has its own inner try/except whose failure falls through past
the plain-text branch (the xls suffix matches no later test), hence
also none. -/
def extract_text (P : Parsers) (name : String) (stream : Bytes) : Option String :=
  let suffix := pySplitDotLast (pyLower name)
  if suffix = "pdf" then
    match P.pdfPages stream with
    | .error _ => none
    | .ok pages => some (pyStrip (pdfConcat pages))
  else if suffix = "docx" then
    match P.docxParagraphs stream with
    | .error _ => none
    | .ok ps => some (pyStrip (String.intercalate "\n" ps))
  else if suffix = "pptx" then
    match P.pptxSlides stream with
    | .error _ => none
    | .ok slides => some (pyStrip (String.intercalate "\n" (pptxTexts slides)))
  else if suffix = "csv" then
    some (pyStrip (String.mk (utf8DecodeIgnore stream)))
  else if suffix = "xlsx" ∨ suffix = "xlsm" then
    match P.xlsxSheets stream with
    | .error _ => none
    | .ok sheets => some (pyStrip (sheetsText sheets))
  else if suffix = "xls" then
    match P.xlsSheets stream with
    | .error _ => none
    | .ok sheets => some (pyStrip (sheetsText sheets))
  else if suffix = "txt" ∨ suffix = "md" ∨ suffix = "json" ∨
          suffix = "xml" ∨ suffix = "html" then
    some (pyStrip (String.mk (utf8DecodeIgnore stream)))
  else none

/-!
PermissionNormalizer: get_file_permissions (source lines 135-202).
The raw grant records are modelled at the key granularity the source
reads: link facet with scope, grantedToV2 with optional user and
group, legacy grantedTo with the same JSON shape (of which the source
reads only the user), and an inheritedFrom marker.  The Bool
inheritedFrom stands for the key being present with a truthy value.
-/

/-- A user identity inside a grant: optional email. -/
structure PUser where
  email : Option String
deriving DecidableEq, Repr

/-- A group identity inside a grant: optional id and email. -/
structure PGroup where
  id : Option String
  email : Option String
deriving DecidableEq, Repr

/-- The link facet of a sharing-link grant: optional scope string. -/
structure LinkFacet where
  scope : Option String
deriving DecidableEq, Repr

/-- Current-shape principal field of a grant. -/
structure GrantedV2 where
  user : Option PUser
  group : Option PGroup
deriving DecidableEq, Repr

/-- Legacy-shape principal field of a grant; the same JSON shape as
the current one (the source reads only its user). -/
structure GrantedLegacy where
  user : Option PUser
  group : Option PGroup
deriving DecidableEq, Repr

/-- One raw permission grant record. -/
structure Perm where
  link : Option LinkFacet := none
  grantedToV2 : Option GrantedV2 := none
  grantedTo : Option GrantedLegacy := none
  inheritedFrom : Bool := false
deriving DecidableEq, Repr

/-- The normalized policy get_file_permissions returns. -/
structure AccessPolicy where
  allowedUsers : List String
  allowedGroups : List String
  hasInheritedPermissions : Bool
  isPublicWithinOrg : Bool
  permissionError : Option String
deriving DecidableEq, Repr

/-- Python list(set(xs)) modelled as deduplication keeping the first
occurrence of each element.  CPython set iteration order is
unspecified; the claims only use membership, singletons and
cardinality, which do not depend on the order chosen here. -/
def pySetList : List String → List String
  | [] => []
  | x :: xs => x :: pySetList (xs.filter (fun y => y ≠ x))
termination_by l => l.length
decreasing_by
  simp only [List.length_cons]
  exact Nat.lt_succ_of_le (xs.length_filter_le _)

/-- Is this grant a sharing link whose scope is anonymous or
organization (source line 151). -/
def linkIsPublic (perm : Perm) : Bool :=
  match perm.link with
  | some l =>
    match l.scope with
    | some s => s = "anonymous" || s = "organization"
    | none => false
  | none => false

/-- One iteration of the grant-classification loop (source lines
149-180), on the accumulator (allowed_users, allowed_groups,
is_public).  A public link sets the flag and skips the rest of the
grant; otherwise grantedToV2 is examined for user email and group
id/email, and only when grantedToV2 is absent the legacy grantedTo is
examined for a user email. -/
def permStep (acc : List String × List String × Bool) (perm : Perm) :
    List String × List String × Bool :=
  if linkIsPublic perm then (acc.1, acc.2.1, true)
  else
    match perm.grantedToV2 with
    | some granted =>
      let users :=
        match granted.user with
        | some u =>
          match u.email with
          | some e => acc.1 ++ [pyLower e]
          | none => acc.1
        | none => acc.1
      let groups :=
        match granted.group with
        | some g =>
          let gs :=
            match g.id with
            | some gid => acc.2.1 ++ [gid]
            | none => acc.2.1
          match g.email with
          | some ge => gs ++ [pyLower ge]
          | none => gs
        | none => acc.2.1
      (users, groups, acc.2.2)
    | none =>
      match perm.grantedTo with
      | some granted =>
        match granted.user with
        | some u =>
          match u.email with
          | some e => (acc.1 ++ [pyLower e], acc.2.1, acc.2.2)
          | none => acc
        | none => acc
      | none => acc

/-- The body of get_file_permissions after a successful fetch (source
lines 145-192): classify every grant, then deduplicate the identifier
lists; hasInheritedPermissions is true when the raw list is empty or
some grant carries an inheritedFrom marker. -/
def normalize_permissions (permissions : List Perm) : AccessPolicy :=
  let r := permissions.foldl permStep ([], [], false)
  { allowedUsers := pySetList r.1
    allowedGroups := pySetList r.2.1
    hasInheritedPermissions :=
      permissions.isEmpty || permissions.any (fun p => p.inheritedFrom)
    isPublicWithinOrg := r.2.2
    permissionError := none }

/-- get_file_permissions (source lines 135-202): fetch, on success
normalize, on any exception return the fail-open default policy with
the error text embedded. -/
def get_file_permissions (fetch : Except String (List Perm)) : AccessPolicy :=
  match fetch with
  | .ok permissions => normalize_permissions permissions
  | .error e =>
    { allowedUsers := []
      allowedGroups := []
      hasInheritedPermissions := true
      isPublicWithinOrg := false
      permissionError := some e }

/-!
MetadataBuilder: build_metadata and format_bytes (source lines
285-343).  datetime.now is an effect; the timestamp is passed in as a
parameter.
-/

/-- Site information as produced by get_site_info (source lines
96-108). -/
structure SiteInfo where
  siteName : String
  siteId : String
  webUrl : String
deriving DecidableEq, Repr

/-- Content hashes of the file facet. -/
structure Hashes where
  quickXorHash : Option String := none
  sha1Hash : Option String := none
deriving DecidableEq, Repr

/-- The file facet of a drive item. -/
structure FileFacet where
  mimeType : Option String := none
  hashes : Option Hashes := none
deriving DecidableEq, Repr

/-- A user reference inside createdBy and lastModifiedBy. -/
structure UserRef where
  displayName : Option String := none
  email : Option String := none
deriving DecidableEq, Repr

/-- An identity set wrapping an optional user reference. -/
structure IdentitySet where
  user : Option UserRef := none
deriving DecidableEq, Repr

/-- A remote drive item at the keys the source reads; folder is the
presence of the folder facet. -/
structure Item where
  id : String
  name : String
  folder : Bool := false
  file : Option FileFacet := none
  size : Option Nat := none
  createdBy : Option IdentitySet := none
  lastModifiedBy : Option IdentitySet := none
  createdDateTime : Option String := none
  lastModifiedDateTime : String := ""
  webUrl : Option String := none
deriving DecidableEq, Repr

/-- A rational num/den rendered with two decimal places, rounding to
nearest (the source formats a binary float with percent .2f; the
half-even versus half-up difference at exact ties is not exercised by
any claim). -/
def formatScaled (num den : Nat) : String :=
  let scaled := (num * 200 + den) / (2 * den)
  let ip := scaled / 100
  let fp := scaled % 100
  toString ip ++ "." ++ (if fp < 10 then "0" else "") ++ toString fp

/-- The unit loop of format_bytes, tracking the running value as the
exact rational size/den instead of a float. -/
def formatBytesGo (num den : Nat) : List String → String
  | [] => formatScaled num den ++ " PB"
  | u :: us =>
    if num < 1024 * den then formatScaled num den ++ " " ++ u
    else formatBytesGo num (den * 1024) us

/-- format_bytes (source lines 337-343). -/
def format_bytes (size : Nat) : String :=
  formatBytesGo size 1 ["B", "KB", "MB", "GB", "TB"]

/-- The fileExtension expression of build_metadata (source line 291):
last dot-separated piece of the raw name, lower-cased, or the empty
string when the name has no dot. -/
def fileExtensionOf (name : String) : String :=
  if containsDot name then
    pyLower (String.mk ((splitOnDot name.data).getLastD []))
  else ""

/-- The record build_metadata assembles; contentText and
contentTextLength model keys that are present only when extraction
returned truthy text. -/
structure Metadata where
  fileName : String
  fileExtension : String
  fileId : String
  sharePointPath : String
  mimeType : String
  siteName : String
  siteId : String
  siteUrl : String
  libraryName : String
  createdBy : String
  createdByEmail : String
  createdAt : String
  lastModifiedBy : String
  lastModifiedByEmail : String
  lastModifiedAt : String
  size : Nat
  sizeReadable : String
  webUrl : Option String
  syncedAt : String
  hasExtractedText : Bool
  quickXorHash : Option String
  sha1Hash : Option String
  contentText : Option String
  contentTextLength : Option Nat
deriving DecidableEq, Repr

/-- build_metadata (source lines 285-335). -/
def build_metadata (item : Item) (current_path : String)
    (extracted_text : Option String) (site_info : SiteInfo)
    (library_name : String) (now : String) : Metadata :=
  { fileName := item.name
    fileExtension := fileExtensionOf item.name
    fileId := item.id
    sharePointPath := current_path
    mimeType := (item.file.bind FileFacet.mimeType).getD "unknown"
    siteName := site_info.siteName
    siteId := site_info.siteId
    siteUrl := site_info.webUrl
    libraryName := library_name
    createdBy :=
      ((item.createdBy.bind IdentitySet.user).bind UserRef.displayName).getD "Unknown"
    createdByEmail :=
      ((item.createdBy.bind IdentitySet.user).bind UserRef.email).getD "Unknown"
    createdAt := item.createdDateTime.getD "Unknown"
    lastModifiedBy :=
      ((item.lastModifiedBy.bind IdentitySet.user).bind UserRef.displayName).getD "Unknown"
    lastModifiedByEmail :=
      ((item.lastModifiedBy.bind IdentitySet.user).bind UserRef.email).getD "Unknown"
    lastModifiedAt := item.lastModifiedDateTime
    size := item.size.getD 0
    sizeReadable := format_bytes (item.size.getD 0)
    webUrl := item.webUrl
    syncedAt := now
    hasExtractedText :=
      match extracted_text with
      | some t => decide (0 < t.length)
      | none => false
    quickXorHash := (item.file.bind FileFacet.hashes).bind Hashes.quickXorHash
    sha1Hash := (item.file.bind FileFacet.hashes).bind Hashes.sha1Hash
    contentText :=
      match extracted_text with
      | some t => if t = "" then none else some t
      | none => none
    contentTextLength :=
      match extracted_text with
      | some t => if t = "" then none else some t.length
      | none => none }

/-!
TreeWalker and SiteSyncOrchestrator: sanitize_folder_name,
sync_library_children, uploadData, sync_site, sync_all_sites (source
lines 345-498).  The traversal is modelled with a fuel bound on folder
depth (the source recursion is unbounded; every theorem supplies
enough fuel for its finite tree).  A call returns the list of sink
writes it performed, in order, together with an optional uncaught
exception.
-/

/-- The characters sanitize_folder_name replaces. -/
def invalidPathChar (c : Char) : Bool :=
  c = '<' || c = '>' || c = ':' || c = '"' || c = '/' ||
  c = '\\' || c = '|' || c = '?' || c = '*'

/-- sanitize_folder_name (source lines 345-351).  The source applies
str.replace once per character; since every target is a single
character and the underscore replacement is never itself a target,
that equals a character-wise map, followed by strip. -/
def sanitize_folder_name (name : String) : String :=
  pyStrip (String.mk (name.data.map (fun c => if invalidPathChar c then '_' else c)))

/-- Python s.lstrip with a slash: drop every leading slash. -/
def pyLstripSlash (s : String) : String :=
  String.mk (s.data.dropWhile (fun c => c = '/'))

/-- The path step of the walk (source line 376): join the accumulated
relative path and the item name with a slash, then strip leading
slashes. -/
def childPath (relative_path name : String) : String :=
  pyLstripSlash (relative_path ++ "/" ++ name)

/-- One document library (drive) as listed by
get_all_document_libraries. -/
structure Library where
  id : String
  name : String
  driveType : Option String := none
  webUrl : Option String := none
deriving DecidableEq, Repr

/-- The remote collaborators of the walk, as oracles; .error models a
raised transport exception at that call site, and now is the
datetime.now timestamp. -/
structure Env where
  listChildren : String → String → Option String → Except String (List Item)
  getContent : String → String → String → Except String Bytes
  parsers : Parsers
  getSiteInfo : String → Except String SiteInfo
  listLibraries : String → Except String (List Library)
  now : String

/-- One write handed to the record sink: target path and record. -/
abbrev SinkWrite := String × Metadata

/-- uploadData (source lines 399-426): fetch the file bytes (an error
here is an uncaught exception), extract text, build the record, and
write it.  The source computes a print-only name from the first
character of meta_blob_path and opens the constant directoryName as
the output path, so the sink write targets directoryName, not a
per-item path. -/
def uploadData (env : Env) (file_blob_path meta_blob_path : String)
    (site_id drive_id : String) (item : Item) (current_path : String)
    (site_info : SiteInfo) (library_name directoryName : String) :
    Except String SinkWrite :=
  match env.getContent site_id drive_id item.id with
  | .error e => .error e
  | .ok file_bytes =>
    let extracted_text := extract_text env.parsers item.name file_bytes
    let metadata :=
      build_metadata item current_path extracted_text site_info library_name env.now
    .ok (directoryName, metadata)

/-- The item loop of sync_library_children (source lines 375-397).
recurse is the recursive call at one less fuel.  A folder whose
recursion raised propagates the exception past the remaining
siblings; a file whose uploadData raised does the same.  directoryName
creation (os.mkdir) is an idempotent environment effect with no
observable value here. -/
def syncItems (env : Env)
    (recurse : String → String → List SinkWrite × Option String)
    (site_id drive_id relative_path : String) (site_info : SiteInfo)
    (library_name blob_base_path : String) :
    List Item → List SinkWrite × Option String
  | [] => ([], none)
  | item :: rest =>
    let current_path := childPath relative_path item.name
    if item.folder then
      match recurse item.id current_path with
      | (recs, some e) => (recs, some e)
      | (recs, none) =>
        let r := syncItems env recurse site_id drive_id relative_path site_info
          library_name blob_base_path rest
        (recs ++ r.1, r.2)
    else
      let file_blob_path := blob_base_path ++ "/" ++ current_path
      let meta_blob_path := file_blob_path ++ ".meta.json"
      match uploadData env file_blob_path meta_blob_path site_id drive_id item
          current_path site_info library_name "RAG_DATA_ROOT" with
      | .error e => ([], some e)
      | .ok w =>
        let r := syncItems env recurse site_id drive_id relative_path site_info
          library_name blob_base_path rest
        (w :: r.1, r.2)

/-- sync_library_children (source lines 353-397): list the children of
the current folder (a listing error is caught there: log and return),
then run the item loop; folders recurse with the extended path. -/
def sync_library_children (env : Env) :
    Nat → String → String → Option String → String → SiteInfo → String → String →
      List SinkWrite × Option String
  | 0, _, _, _, _, _, _, _ => ([], none)
  | fuel + 1, site_id, drive_id, item_id, relative_path, site_info,
      library_name, blob_base_path =>
    match env.listChildren site_id drive_id item_id with
    | .error _ => ([], none)
    | .ok items =>
      syncItems env
        (fun cid cpath =>
          sync_library_children env fuel site_id drive_id (some cid) cpath
            site_info library_name blob_base_path)
        site_id drive_id relative_path site_info library_name blob_base_path items

/-- get_all_document_libraries (source lines 110-133): the fetch error
is caught internally and yields an empty list. -/
def get_all_document_libraries (env : Env) (site_id : String) : List Library :=
  match env.listLibraries site_id with
  | .ok drives => drives
  | .error _ => []

/-- The library loop of sync_site (source lines 451-470): each
library's walk runs under a try/except, so an exception escaping one
library's walk is logged and the loop continues; writes performed
before the exception are kept. -/
def syncSiteLibs (env : Env) (fuel : Nat) (site_id : String)
    (site_info : SiteInfo) (site_name : String) : List Library → List SinkWrite
  | [] => []
  | library :: rest =>
    let library_name := sanitize_folder_name library.name
    let blob_base_path := site_name ++ "/" ++ library_name
    (sync_library_children env fuel site_id library.id none "" site_info
        library.name blob_base_path).1
      ++ syncSiteLibs env fuel site_id site_info site_name rest

/-- sync_site (source lines 428-470): get_site_info may raise (an
uncaught exception inside this function), libraries are enumerated
with the internal catch, an empty library list returns early, and
otherwise every library is walked with per-library isolation. -/
def sync_site (env : Env) (fuel : Nat) (site_id : String) :
    List SinkWrite × Option String :=
  match env.getSiteInfo site_id with
  | .error e => ([], some e)
  | .ok site_info =>
    let site_name := sanitize_folder_name site_info.siteName
    let libraries := get_all_document_libraries env site_id
    if libraries.isEmpty then ([], none)
    else (syncSiteLibs env fuel site_id site_info site_name libraries, none)

/-- The site loop of sync_all_sites (source lines 489-494): each site
syncs under a try/except, so a site's exception is logged and the loop
continues. -/
def syncSitesLoop (env : Env) (fuel : Nat) : List String → List SinkWrite
  | [] => []
  | site_id :: rest =>
    (sync_site env fuel site_id).1 ++ syncSitesLoop env fuel rest

/-- sync_all_sites (source lines 472-498), applied to an already
determined site list (discovery and the manual list are external
configuration): an empty list returns early, otherwise every site is
synced with per-site isolation. -/
def sync_all_sites (env : Env) (fuel : Nat) (sites : List String) :
    List SinkWrite :=
  if sites.isEmpty then [] else syncSitesLoop env fuel sites

/-!
General helper lemmas about the embedded primitives.
-/

/-- A string is empty exactly when its character list is. -/
lemma string_eq_empty_iff (s : String) : s = "" ↔ s.data = [] := by
  cases s with
  | mk d =>
    constructor
    · intro h
      rw [show ("" : String) = String.mk [] from rfl] at h
      exact congrArg String.data h
    · intro h
      rw [show d = [] from h]

/-- A string has positive length exactly when it is not empty. -/
lemma string_length_pos_iff (s : String) : 0 < s.length ↔ s ≠ "" := by
  rw [show s.length = s.data.length from rfl, List.length_pos]
  exact (not_congr (string_eq_empty_iff s)).symm

/-- Membership in the deduplicated list agrees with membership in the
original list. -/
lemma mem_pySetList (a : String) (l : List String) :
    a ∈ pySetList l ↔ a ∈ l := by
  induction l using pySetList.induct with
  | case1 => simp [pySetList]
  | case2 x xs ih =>
    rw [pySetList]
    simp only [List.mem_cons, ih, List.mem_filter]
    constructor
    · rintro (rfl | ⟨h, _⟩)
      · exact Or.inl rfl
      · exact Or.inr h
    · rintro (rfl | h)
      · exact Or.inl rfl
      · by_cases hx : a = x
        · exact Or.inl hx
        · exact Or.inr ⟨h, by simp [hx]⟩

/-- splitOnDot never returns the empty list. -/
lemma splitOnDot_ne_nil (l : List Char) : splitOnDot l ≠ [] := by
  cases l with
  | nil => simp [splitOnDot]
  | cons c cs =>
    rw [splitOnDot]
    cases h : splitOnDot cs with
    | nil => simp
    | cons a t => by_cases hc : c = '.' <;> simp [hc]

/-- On a dot-free list splitOnDot yields the one-piece split. -/
lemma splitOnDot_not_mem {l : List Char} (h : '.' ∉ l) : splitOnDot l = [l] := by
  induction l with
  | nil => rfl
  | cons c cs ih =>
    rw [List.mem_cons, not_or] at h
    rw [splitOnDot, ih h.2]
    have : c ≠ '.' := fun hc => h.1 hc.symm
    simp [this]

/-- The step equation of splitOnDot on a cons, with the tail split
already known. -/
lemma splitOnDot_cons_eq (c : Char) (cs : List Char) {a : List Char}
    {t : List (List Char)} (h : splitOnDot cs = a :: t) :
    splitOnDot (c :: cs) = if c = '.' then [] :: a :: t else (c :: a) :: t := by
  rw [splitOnDot, h]

/-- The number of split pieces is the dot count plus one. -/
lemma length_splitOnDot (l : List Char) :
    (splitOnDot l).length = l.count '.' + 1 := by
  induction l with
  | nil => rfl
  | cons c cs ih =>
    cases h : splitOnDot cs with
    | nil => exact absurd h (splitOnDot_ne_nil cs)
    | cons a t =>
      rw [h] at ih
      simp only [List.length_cons] at ih
      rw [splitOnDot_cons_eq c cs h]
      by_cases hc : c = '.'
      · subst hc
        rw [if_pos rfl]
        simp [List.count_cons]
        omega
      · rw [if_neg hc]
        simp [List.count_cons, hc]
        omega

/-- takeWhile over an append whose left part is fully accepted. -/
lemma takeWhile_append_all {p : Char → Bool} {l r : List Char}
    (h : ∀ a ∈ l, p a = true) :
    (l ++ r).takeWhile p = l ++ r.takeWhile p := by
  induction l with
  | nil => simp
  | cons c cs ih =>
    have hc := h c (by simp)
    simp [List.takeWhile_cons, hc,
      ih (fun a ha => h a (List.mem_cons_of_mem _ ha))]

/-- takeWhile over an append that stops inside the left part. -/
lemma takeWhile_append_stop {p : Char → Bool} {l : List Char} (r : List Char)
    (h : ∃ a ∈ l, p a = false) :
    (l ++ r).takeWhile p = l.takeWhile p := by
  induction l with
  | nil => simp at h
  | cons c cs ih =>
    rw [List.cons_append, List.takeWhile_cons, List.takeWhile_cons]
    cases hc : p c with
    | false => simp
    | true =>
      simp only [if_true]
      obtain ⟨a, ha, hpa⟩ := h
      rcases List.mem_cons.mp ha with rfl | ha2
      · rw [hc] at hpa; exact absurd hpa (by simp)
      · rw [ih ⟨a, ha2, hpa⟩]

/-- takeWhile over an append with a single rejected element on the
right. -/
lemma takeWhile_append_single_false {p : Char → Bool} {a : Char}
    (l : List Char) (ha : p a = false) :
    (l ++ [a]).takeWhile p = l.takeWhile p := by
  induction l with
  | nil => simp [List.takeWhile_cons, ha]
  | cons c cs ih =>
    rw [List.cons_append, List.takeWhile_cons, List.takeWhile_cons]
    cases hc : p c with
    | false => simp
    | true => simp only [if_true]; rw [ih]

/-- The last piece of splitOnDot is the reversed dot-free front of the
reversed list: the suffix after the last dot. -/
lemma getLastD_splitOnDot (l : List Char) :
    (splitOnDot l).getLastD [] =
      (l.reverse.takeWhile (fun c => c ≠ '.')).reverse := by
  induction l with
  | nil => rfl
  | cons c cs ih =>
    cases h : splitOnDot cs with
    | nil => exact absurd h (splitOnDot_ne_nil cs)
    | cons a t =>
      rw [h] at ih
      have hrev : (c :: cs).reverse = cs.reverse ++ [c] := by simp
      rw [splitOnDot_cons_eq c cs h]
      by_cases hc : c = '.'
      · subst hc
        rw [if_pos rfl, List.getLastD_cons, hrev,
          takeWhile_append_single_false cs.reverse (by simp)]
        exact ih
      · rw [if_neg hc]
        cases t with
        | nil =>
          have hnodot : '.' ∉ cs := by
            intro hmem
            have hcount := length_splitOnDot cs
            rw [h] at hcount
            have := List.count_pos_iff.mpr hmem
            simp at hcount
            omega
          have ha : a = cs := by
            have h2 := splitOnDot_not_mem hnodot
            rw [h] at h2
            simpa using h2
          subst ha
          rw [hrev, takeWhile_append_all ?hall]
          case hall =>
            intro x hx
            have hxd : x ≠ '.' := by
              intro hxe; subst hxe
              exact hnodot (List.mem_reverse.mp hx)
            simp [hxd]
          simp [List.takeWhile_cons, hc]
        | cons t1 t2 =>
          have hdot : '.' ∈ cs := by
            have hcount := length_splitOnDot cs
            rw [h] at hcount
            by_contra hno
            have h2 := splitOnDot_not_mem hno
            rw [h] at h2
            simp at h2
          rw [List.getLastD_cons, List.getLastD_cons, hrev,
            takeWhile_append_stop [c] ⟨'.', List.mem_reverse.mpr hdot, by simp⟩]
          rw [List.getLastD_cons, List.getLastD_cons] at ih
          exact ih

/-- Deduplication of a singleton. -/
lemma pySetList_singleton (a : String) : pySetList [a] = [a] := by
  rw [pySetList]
  simp [pySetList]

/-- Deduplication of a repeated pair. -/
lemma pySetList_pair_self (a : String) : pySetList [a, a] = [a] := by
  rw [pySetList]
  simp [pySetList]

/-- The evaluated-char image of the ASCII lower map is a dot only for
the dot itself. -/
lemma pyLowerChar_eq_dot_iff (c : Char) : pyLowerChar c = '.' ↔ c = '.' := by
  unfold pyLowerChar
  split
  · rename_i h
    constructor
    · intro hEq
      have h46 := congrArg Char.toNat hEq
      have hv : (Char.ofNatAux (c.toNat + 32) (Or.inl (by omega))).toNat =
          c.toNat + 32 := rfl
      rw [hv] at h46
      have : ('.' : Char).toNat = 46 := rfl
      omega
    · intro hEq
      subst hEq
      exact absurd h (by decide)
  · exact Iff.rfl

/-- Lower-casing preserves the presence of a dot. -/
lemma mem_dot_pyLower (s : String) : '.' ∈ (pyLower s).data ↔ '.' ∈ s.data := by
  show '.' ∈ s.data.map pyLowerChar ↔ '.' ∈ s.data
  rw [List.mem_map]
  constructor
  · rintro ⟨c, hc, hEq⟩
    rw [pyLowerChar_eq_dot_iff] at hEq
    subst hEq
    exact hc
  · intro h
    exact ⟨'.', h, by rw [pyLowerChar_eq_dot_iff]⟩

/-!
Claims C5, C6, C7 about the permission normalizer.
-/

/-- Fixture for C5: a sharing-link grant with the given scope. -/
def c5LinkGrant (s : String) : Perm :=
  { link := some { scope := some s } }

/-- Fixture for C5: a current-shape user grant with the given email. -/
def c5UserGrant (e : String) : Perm :=
  { grantedToV2 := some { user := some { email := some e }, group := none } }

/-- Claim C5: a grant list with one sharing-link grant of scope
anonymous or organization and one user grant with an email normalizes
to a policy that is public within the organization, whose allowed
users are exactly the lower-cased email (so the link grant contributes
no identifier), and two grants naming the same email produce a single
allowed-user entry. -/
theorem C5_public_link_and_user_grant :
    ∀ s e : String, (s = "anonymous" ∨ s = "organization") →
      ((normalize_permissions [c5LinkGrant s, c5UserGrant e]).isPublicWithinOrg = true
        ∧ (normalize_permissions [c5LinkGrant s, c5UserGrant e]).allowedUsers = [pyLower e]
        ∧ (normalize_permissions [c5LinkGrant s, c5UserGrant e]).allowedGroups = [])
      ∧ (normalize_permissions [c5UserGrant e, c5UserGrant e]).allowedUsers = [pyLower e] := by
  intro s e hs
  have hdedup :
      (normalize_permissions [c5UserGrant e, c5UserGrant e]).allowedUsers = [pyLower e] := by
    simp [normalize_permissions, permStep, linkIsPublic, c5UserGrant,
      pySetList_pair_self]
  refine ⟨?_, hdedup⟩
  rcases hs with rfl | rfl <;>
    simp [normalize_permissions, permStep, linkIsPublic, c5LinkGrant,
      c5UserGrant, pySetList_singleton, pySetList]

/-- Witness for C5 at a concrete scope and mixed-case email. -/
theorem C5_public_link_and_user_grant_witness :
    ((normalize_permissions [c5LinkGrant "organization", c5UserGrant "Bob@X.com"]).isPublicWithinOrg = true
      ∧ (normalize_permissions [c5LinkGrant "organization", c5UserGrant "Bob@X.com"]).allowedUsers
          = [pyLower "Bob@X.com"]
      ∧ (normalize_permissions [c5LinkGrant "organization", c5UserGrant "Bob@X.com"]).allowedGroups = [])
    ∧ (normalize_permissions [c5UserGrant "Bob@X.com", c5UserGrant "Bob@X.com"]).allowedUsers
        = [pyLower "Bob@X.com"] :=
  C5_public_link_and_user_grant "organization" "Bob@X.com" (Or.inr rfl)

/-- Claim C6: normalize on the empty grant list returns exactly the
policy with empty identifier lists, hasInheritedPermissions true and
isPublicWithinOrg false; in general hasInheritedPermissions is true
exactly when the raw grant list is empty or some grant carries an
inheritance marker. -/
theorem C6_normalize_empty_and_inherited :
    normalize_permissions [] =
      { allowedUsers := []
        allowedGroups := []
        hasInheritedPermissions := true
        isPublicWithinOrg := false
        permissionError := none }
    ∧ ∀ perms : List Perm,
        ((normalize_permissions perms).hasInheritedPermissions = true ↔
          (perms = [] ∨ ∃ p ∈ perms, p.inheritedFrom = true)) := by
  constructor
  · simp [normalize_permissions, pySetList]
  · intro perms
    simp [normalize_permissions, List.isEmpty_iff, List.any_eq_true]

/-- Fixture for the C7 counterexample: a legacy-shape grant naming a
group with id g1 and no user. -/
def c7LegacyGroupGrant : Perm :=
  { grantedTo := some { user := none, group := some { id := some "g1", email := none } } }

/-- Claim C7 counterexample: a legacy-shape grant naming a group
contributes nothing to allowedGroups, contradicting the claim that it
contributes the group identifier. -/
theorem C7_counterexample :
    (normalize_permissions [c7LegacyGroupGrant]).allowedGroups = []
    ∧ "g1" ∉ (normalize_permissions [c7LegacyGroupGrant]).allowedGroups := by
  have h : (normalize_permissions [c7LegacyGroupGrant]).allowedGroups = [] := by
    simp [normalize_permissions, permStep, linkIsPublic, c7LegacyGroupGrant, pySetList]
  exact ⟨h, by simp [h]⟩

/-- Fixture for C7 amended: a current-shape user grant. -/
def c7V2UserGrant (e : String) : Perm :=
  { grantedToV2 := some { user := some { email := some e }, group := none } }

/-- Fixture for C7 amended: a current-shape group grant. -/
def c7V2GroupGrant (gi ge : Option String) : Perm :=
  { grantedToV2 := some { user := none, group := some { id := gi, email := ge } } }

/-- Fixture for C7 amended: a legacy-shape user grant. -/
def c7LegacyUserGrant (e : String) : Perm :=
  { grantedTo := some { user := some { email := some e }, group := none } }

/-- Fixture for C7 amended: a legacy-shape grant naming an arbitrary
group and no user. -/
def c7LegacyGroupOf (g : PGroup) : Perm :=
  { grantedTo := some { user := none, group := some g } }

/-- Claim C7 amended: a current-shape grant contributes a present user
email lower-cased to allowedUsers, a present group id as-is and a
present group email lower-cased to allowedGroups; a legacy-shape grant
contributes only a present user email (lower-cased), and a legacy
grant naming a group contributes nothing. -/
theorem C7_amended_principal_grants :
    ∀ (e gid ge : String) (g : PGroup),
      (normalize_permissions [c7V2UserGrant e]).allowedUsers = [pyLower e]
      ∧ gid ∈ (normalize_permissions [c7V2GroupGrant (some gid) (some ge)]).allowedGroups
      ∧ pyLower ge ∈ (normalize_permissions [c7V2GroupGrant (some gid) (some ge)]).allowedGroups
      ∧ (normalize_permissions [c7V2GroupGrant (some gid) none]).allowedGroups = [gid]
      ∧ (normalize_permissions [c7LegacyUserGrant e]).allowedUsers = [pyLower e]
      ∧ (normalize_permissions [c7LegacyGroupOf g]).allowedUsers = []
      ∧ (normalize_permissions [c7LegacyGroupOf g]).allowedGroups = [] := by
  intro e gid ge g
  refine ⟨?_, ?_, ?_, ?_, ?_, ?_, ?_⟩ <;>
    simp [normalize_permissions, permStep, linkIsPublic, c7V2UserGrant,
      c7V2GroupGrant, c7LegacyUserGrant, c7LegacyGroupOf, pySetList,
      mem_pySetList, pySetList_singleton] <;>
    exact Classical.em _

/-!
Claim C9 about the record invariants of build_metadata.
-/

/-- Claim C9: hasExtractedText is true exactly when the extracted text
is present and nonempty; when extraction yielded nothing or empty
text, the contentText and contentTextLength keys are absent; when
present, contentTextLength is the length of contentText. -/
theorem C9_extracted_text_invariants :
    ∀ (item : Item) (cp : String) (et : Option String) (si : SiteInfo)
      (lib now : String),
      ((build_metadata item cp et si lib now).hasExtractedText = true ↔
        ∃ t, et = some t ∧ t ≠ "")
      ∧ ((et = none ∨ et = some "") →
          (build_metadata item cp et si lib now).contentText = none
          ∧ (build_metadata item cp et si lib now).contentTextLength = none)
      ∧ (∀ t, et = some t → t ≠ "" →
          (build_metadata item cp et si lib now).contentText = some t
          ∧ (build_metadata item cp et si lib now).contentTextLength = some t.length) := by
  intro item cp et si lib now
  refine ⟨?_, ?_, ?_⟩
  · cases et with
    | none => simp [build_metadata]
    | some t => simp [build_metadata, string_length_pos_iff]
  · rintro (rfl | rfl) <;> simp [build_metadata]
  · rintro t rfl hne
    simp [build_metadata, hne]

/-- Fixture item for the C9 witness. -/
def c9Item : Item := { id := "I", name := "n.txt" }

/-- Fixture site for the C9 witness. -/
def c9Info : SiteInfo := { siteName := "S", siteId := "sid", webUrl := "u" }

/-- Witness for C9 at concrete inputs with nonempty extracted text. -/
theorem C9_extracted_text_invariants_witness :
    (build_metadata c9Item "p" (some "hi") c9Info "L" "T").contentText = some "hi"
    ∧ (build_metadata c9Item "p" (some "hi") c9Info "L" "T").contentTextLength
        = some (String.length "hi") :=
  (C9_extracted_text_invariants c9Item "p" (some "hi") c9Info "L" "T").2.2
    "hi" rfl (by decide)

/-!
Claim C10 about the dispatch key for dotless filenames.
-/

/-- Fixture parsers for C10: the pdf oracle returns one page of
text. -/
def c10Parsers : Parsers :=
  { pdfPages := fun _ => .ok [some "hello"]
    docxParagraphs := fun _ => .error "unused"
    pptxSlides := fun _ => .error "unused"
    xlsxSheets := fun _ => .error "unused"
    xlsSheets := fun _ => .error "unused" }

/-- Claim C10: for a name without a dot, the dispatch key of
extract_text is the entire lower-cased name, while build_metadata
gives the same name an empty fileExtension; concretely a file named
pdf is dispatched to the pdf decoder and yields its text. -/
theorem C10_dotless_name_dispatch :
    (∀ name : String, containsDot name = false →
      pySplitDotLast (pyLower name) = pyLower name
      ∧ fileExtensionOf name = "")
    ∧ extract_text c10Parsers "pdf" [] = some "hello" := by
  constructor
  · intro name h
    have hnotmem : '.' ∉ name.data := by
      simpa [containsDot] using h
    constructor
    · have hlow : '.' ∉ (pyLower name).data :=
        fun hm => hnotmem ((mem_dot_pyLower name).mp hm)
      rw [pySplitDotLast, splitOnDot_not_mem hlow]
      rfl
    · rw [fileExtensionOf, if_neg (by simp [h])]
  · rfl

/-- Witness for C10 at a concrete dotless name. -/
theorem C10_dotless_name_dispatch_witness :
    pySplitDotLast (pyLower "README") = pyLower "README"
    ∧ fileExtensionOf "README" = "" :=
  C10_dotless_name_dispatch.1 "README" rfl

/-!
Claim C3 about the plain-text decode branch.
-/

/-- Fixture parsers whose oracles all raise; used by the concrete
environments of several claims (a raising parser is never consulted on
unsupported or plain-text suffixes, and models extraction failure
elsewhere). -/
def errorParsers : Parsers :=
  { pdfPages := fun _ => .error "unused"
    docxParagraphs := fun _ => .error "unused"
    pptxSlides := fun _ => .error "unused"
    xlsxSheets := fun _ => .error "unused"
    xlsSheets := fun _ => .error "unused" }

/-- Claim C3 counterexample: on the single invalid byte 255 with a txt
name, extract_text returns the empty string because the source decodes
with errors ignore, dropping the byte; decoding with the
replacement-character semantics the claim describes would give the
one-character replacement string, which differs. -/
theorem C3_counterexample :
    extract_text errorParsers "a.txt" [255] = some ""
    ∧ pyStrip (String.mk (utf8DecodeReplace [255])) = "�"
    ∧ ("" : String) ≠ "�" := by
  refine ⟨rfl, by decide, by decide⟩

/-- Claim C3 amended: for every byte stream whose dispatch key is one
of the plain-text suffixes, extract_text decodes the bytes as UTF-8
with undecodable subparts dropped (errors ignore) and returns the
whitespace-trimmed result. -/
theorem C3_amended_text_decode :
    ∀ (P : Parsers) (name : String) (stream : Bytes),
      pySplitDotLast (pyLower name) ∈
        (["csv", "txt", "md", "json", "xml", "html"] : List String) →
      extract_text P name stream =
        some (pyStrip (String.mk (utf8DecodeIgnore stream))) := by
  intro P name stream h
  simp only [List.mem_cons, List.not_mem_nil, or_false] at h
  rcases h with h | h | h | h | h | h <;> simp [extract_text, h]

/-- Witness for C3 amended at a concrete md name and ascii bytes. -/
theorem C3_amended_text_decode_witness :
    extract_text errorParsers "b.md" [104, 105] =
      some (pyStrip (String.mk (utf8DecodeIgnore [104, 105]))) :=
  C3_amended_text_decode errorParsers "b.md" [104, 105] (by decide)

/-!
Claims C1 and C2 about the per-file behavior of the walk, and C4
about site and library isolation.
-/

/-- Fixture site info for the C1 environment. -/
def c1Info : SiteInfo := { siteName := "S", siteId := "sid", webUrl := "u" }

/-- Fixture: first file of the listing; its content fetch raises. -/
def c1FileA : Item := { id := "A", name := "a.bin" }

/-- Fixture: second (sibling) file of the listing; its content fetch
would succeed. -/
def c1FileB : Item := { id := "B", name := "b.bin" }

/-- Fixture environment for C1: the root listing holds two files and
fetching the content of the first raises a transport error. -/
def c1Env : Env :=
  { listChildren := fun _ _ oid =>
      match oid with
      | none => .ok [c1FileA, c1FileB]
      | some _ => .ok []
    getContent := fun _ _ i => if i = "A" then .error "boom" else .ok []
    parsers := errorParsers
    getSiteInfo := fun _ => .ok c1Info
    listLibraries := fun _ => .ok [{ id := "d", name := "L" }]
    now := "T" }

/-- Claim C1 counterexample: with two sibling files whose first
content fetch raises, the walk emits no record at all (the sibling is
not processed) and the exception escapes the walk, aborting the
enclosing library sync; the claim said the sibling still produces a
record and the library sync is not aborted. -/
theorem C1_counterexample :
    sync_library_children c1Env 1 "s" "d" none "" c1Info "L" "Base"
      = ([], some "boom") := rfl

/-- Claim C1 amended: an extraction failure is caught at the file
boundary inside extract_text, so the file still yields a record
whenever its content fetch succeeded; but a transport error during a
single file content fetch propagates out of the walk: the remaining
siblings are not processed and the enclosing library walk is aborted
(the exception is then caught at the library boundary in sync_site). -/
theorem C1_amended_content_fetch_aborts_walk :
    (∀ (env : Env) (fuel : Nat) (site drive rel lib bb : String)
        (info : SiteInfo) (a b : Item) (e : String),
        a.folder = false → b.folder = false →
        env.listChildren site drive none = .ok [a, b] →
        env.getContent site drive a.id = .error e →
        sync_library_children env (fuel + 1) site drive none rel info lib bb
          = ([], some e))
    ∧ (∀ (env : Env) (site drive fbp mbp current lib dirName : String)
        (info : SiteInfo) (item : Item) (bytes : Bytes),
        env.getContent site drive item.id = .ok bytes →
        uploadData env fbp mbp site drive item current info lib dirName =
          .ok (dirName,
            build_metadata item current (extract_text env.parsers item.name bytes)
              info lib env.now)) := by
  constructor
  · intro env fuel site drive rel lib bb info a b e ha hb hlist hcontent
    simp [sync_library_children, hlist, syncItems, ha, uploadData, hcontent]
  · intro env site drive fbp mbp current lib dirName info item bytes hcontent
    simp [uploadData, hcontent]

/-- Witness for C1 amended: the abort at the concrete environment, and
a record still produced when only extraction (not the fetch) fails. -/
theorem C1_amended_content_fetch_aborts_walk_witness :
    sync_library_children c1Env 1 "s" "d" none "" c1Info "Lib" "Base"
      = ([], some "boom")
    ∧ uploadData c1Env "f" "m" "s" "d" c1FileB "p" c1Info "Lib" "R" =
        .ok ("R",
          build_metadata c1FileB "p"
            (extract_text c1Env.parsers c1FileB.name []) c1Info "Lib" c1Env.now) :=
  ⟨C1_amended_content_fetch_aborts_walk.1 c1Env 0 "s" "d" "" "Lib" "Base"
      c1Info c1FileA c1FileB "boom" rfl rfl rfl rfl,
    C1_amended_content_fetch_aborts_walk.2 c1Env "s" "d" "f" "m" "p" "Lib" "R"
      c1Info c1FileB [] rfl⟩

/-- Fixture site info for the C2 environment. -/
def c2Info : SiteInfo := { siteName := "S", siteId := "sid", webUrl := "u" }

/-- Fixture: first of two distinct files in the library root. -/
def c2FileA : Item := { id := "A", name := "a.bin" }

/-- Fixture: second of two distinct files in the library root. -/
def c2FileB : Item := { id := "B", name := "b.bin" }

/-- Fixture environment for C2: two distinct files, both fetches
succeed. -/
def c2Env : Env :=
  { listChildren := fun _ _ oid =>
      match oid with
      | none => .ok [c2FileA, c2FileB]
      | some _ => .ok []
    getContent := fun _ _ _ => .ok []
    parsers := errorParsers
    getSiteInfo := fun _ => .ok c2Info
    listLibraries := fun _ => .ok [{ id := "d", name := "L" }]
    now := "T" }

/-- Claim C2 evaluated at the failing input: processing two distinct
files writes both records to the single constant path RAG_DATA_ROOT
(uploadData opens the run root directory name as the output file for
every item), so the second write targets the same path as the first
instead of two distinct per-item paths. -/
theorem C2_every_write_targets_same_path :
    ((sync_library_children c2Env 1 "s" "d" none "" c2Info "L" "Site/L").1.map
        Prod.fst)
      = ["RAG_DATA_ROOT", "RAG_DATA_ROOT"]
    ∧ c2FileA ≠ c2FileB :=
  ⟨rfl, by decide⟩

/-- The site loop concatenates exactly the per-site record lists. -/
lemma syncSitesLoop_eq (env : Env) (fuel : Nat) (sites : List String) :
    syncSitesLoop env fuel sites
      = (sites.map (fun s => (sync_site env fuel s).1)).flatten := by
  induction sites with
  | nil => rfl
  | cons s rest ih => simp [syncSitesLoop, ih]

/-- The library loop concatenates exactly the per-library record
lists. -/
lemma syncSiteLibs_eq (env : Env) (fuel : Nat) (site_id : String)
    (info : SiteInfo) (site_name : String) (libs : List Library) :
    syncSiteLibs env fuel site_id info site_name libs
      = (libs.map (fun lib =>
          (sync_library_children env fuel site_id lib.id none "" info lib.name
            (site_name ++ "/" ++ sanitize_folder_name lib.name)).1)).flatten := by
  induction libs with
  | nil => rfl
  | cons l rest ih => simp [syncSiteLibs, ih]

/-- Claim C4: the records of a whole run are exactly the concatenation
of the records of each site (so one site raising, including during
site-info resolution, cannot affect another site's records), and
within a site whose info resolved, the records are exactly the
concatenation of each library walk's records (so one library raising
cannot affect another library's records). -/
theorem C4_site_and_library_isolation :
    (∀ (env : Env) (fuel : Nat) (sites : List String),
        sync_all_sites env fuel sites
          = (sites.map (fun s => (sync_site env fuel s).1)).flatten)
    ∧ (∀ (env : Env) (fuel : Nat) (site_id : String) (info : SiteInfo),
        env.getSiteInfo site_id = .ok info →
        (sync_site env fuel site_id).1
          = ((get_all_document_libraries env site_id).map (fun lib =>
              (sync_library_children env fuel site_id lib.id none "" info
                lib.name
                (sanitize_folder_name info.siteName ++ "/" ++
                  sanitize_folder_name lib.name)).1)).flatten) := by
  constructor
  · intro env fuel sites
    cases sites with
    | nil => rfl
    | cons s rest => simp [sync_all_sites, syncSitesLoop_eq]
  · intro env fuel site_id info h
    cases hlib : get_all_document_libraries env site_id with
    | nil => simp [sync_site, h, hlib]
    | cons l rest => simp [sync_site, h, hlib, syncSiteLibs_eq]

/-- Fixture site info for the C4 witness environment. -/
def c4Info : SiteInfo := { siteName := "Two", siteId := "s2", webUrl := "u2" }

/-- Fixture file for the C4 witness environment. -/
def c4File : Item := { id := "F", name := "doc.bin" }

/-- Fixture library for the C4 witness environment. -/
def c4Lib : Library := { id := "d2", name := "Docs" }

/-- Fixture environment for C4: resolving the first site raises, the
second site resolves and serves one library with one file. -/
def c4Env : Env :=
  { listChildren := fun _ _ oid =>
      match oid with
      | none => .ok [c4File]
      | some _ => .ok []
    getContent := fun _ _ _ => .ok []
    parsers := errorParsers
    getSiteInfo := fun s => if s = "s1" then .error "site one down" else .ok c4Info
    listLibraries := fun _ => .ok [c4Lib]
    now := "T" }

/-- Witness for C4 at the concrete environment whose first site
raises. -/
theorem C4_site_and_library_isolation_witness :
    (sync_site c4Env 1 "s2").1
      = ((get_all_document_libraries c4Env "s2").map (fun lib =>
          (sync_library_children c4Env 1 "s2" lib.id none "" c4Info lib.name
            (sanitize_folder_name c4Info.siteName ++ "/" ++
              sanitize_folder_name lib.name)).1)).flatten :=
  C4_site_and_library_isolation.2 c4Env 1 "s2" c4Info rfl

/-!
Claim C8 about path building and the file extension.
-/

/-- The specification-side reading of the extension: the suffix of the
name after its last dot. -/
def suffixAfterLastDot (s : String) : String :=
  String.mk ((s.data.reverse.takeWhile (fun c => c ≠ '.')).reverse)

/-- The specification-side reading of the path: pieces joined with a
slash. -/
def pyJoinSlash : List String → String
  | [] => ""
  | [x] => x
  | x :: y :: t => x ++ "/" ++ pyJoinSlash (y :: t)

/-- Strings with equal character lists are equal. -/
lemma string_eq_of_data (a b : String) (h : a.data = b.data) : a = b :=
  congrArg String.mk h

/-- The character list of the path step. -/
lemma childPath_data (rel n : String) :
    (childPath rel n).data
      = (rel.data ++ '/' :: n.data).dropWhile (fun c => c = '/') := by
  show ((rel ++ "/" ++ n).data).dropWhile (fun c => c = '/') = _
  rw [String.data_append, String.data_append]
  simp

/-- dropWhile on the slash predicate never leaves a leading slash. -/
lemma head?_dropWhile_slash (l : List Char) :
    (l.dropWhile (fun c => c = '/')).head? ≠ some '/' := by
  induction l with
  | nil => simp
  | cons c t ih =>
    by_cases h : c = '/'
    · simpa [List.dropWhile_cons, h] using ih
    · simp [List.dropWhile_cons, h]

/-- dropWhile on the slash predicate is the identity when the list
does not start with a slash. -/
lemma dropWhile_slash_of_head (l : List Char) (h : l.head? ≠ some '/') :
    l.dropWhile (fun c => c = '/') = l := by
  cases l with
  | nil => rfl
  | cons c t =>
    have hc : ¬ c = '/' := fun hc => h (by simp [hc])
    simp [List.dropWhile_cons, hc]

/-- The path step on a nonempty accumulated path without a leading
slash is a plain slash join. -/
lemma childPath_of_ne_empty (rel n : String) (h1 : rel.data ≠ [])
    (h2 : rel.data.head? ≠ some '/') : childPath rel n = rel ++ "/" ++ n := by
  apply string_eq_of_data
  rw [childPath_data, String.data_append, String.data_append]
  have hh : (rel.data ++ '/' :: n.data).head? ≠ some '/' := by
    cases hd : rel.data with
    | nil => exact absurd hd h1
    | cons c t =>
      rw [hd] at h2
      simpa using h2
  rw [dropWhile_slash_of_head _ hh]
  simp

/-- The path step from the empty accumulated path keeps the item name
when it has no leading slash. -/
lemma childPath_empty (n : String) (h : n.data.head? ≠ some '/') :
    childPath "" n = n := by
  apply string_eq_of_data
  rw [childPath_data]
  show (('/' :: n.data).dropWhile (fun c => c = '/')) = n.data
  rw [List.dropWhile_cons]
  simp only [decide_eq_true_eq, if_pos rfl]
  exact dropWhile_slash_of_head _ h

/-- Appending keeps the head of a nonempty string. -/
lemma append_head (rel x : String) (h1 : rel.data ≠ []) :
    (rel ++ x).data.head? = rel.data.head? := by
  rw [String.data_append]
  cases hd : rel.data with
  | nil => exact absurd hd h1
  | cons c t => simp

/-- Appending keeps a string nonempty. -/
lemma append_ne_nil (rel x : String) (h1 : rel.data ≠ []) :
    (rel ++ x).data ≠ [] := by
  rw [String.data_append]
  simp [h1]

/-- The join on a cons with a nonempty tail. -/
lemma pyJoinSlash_cons (x : String) (l : List String) (h : l ≠ []) :
    pyJoinSlash (x :: l) = x ++ "/" ++ pyJoinSlash l := by
  cases l with
  | nil => exact absurd rfl h
  | cons y t => rfl

/-- Folding the path step over folder names from a nonempty seed
without a leading slash is a plain slash join. -/
lemma foldl_childPath_join (rest : List String) :
    ∀ (rel name : String), rel.data ≠ [] → rel.data.head? ≠ some '/' →
      childPath (rest.foldl childPath rel) name
        = rel ++ "/" ++ pyJoinSlash (rest ++ [name]) := by
  induction rest with
  | nil =>
    intro rel name h1 h2
    simp only [List.foldl_nil, List.nil_append]
    rw [childPath_of_ne_empty rel name h1 h2]
    rfl
  | cons r rs ih =>
    intro rel name h1 h2
    rw [List.foldl_cons, childPath_of_ne_empty rel r h1 h2]
    rw [ih (rel ++ "/" ++ r) name
      (append_ne_nil _ _ (append_ne_nil _ _ h1)) ?hh]
    case hh =>
      rw [append_head _ _ (append_ne_nil _ _ h1), append_head _ _ h1]
      exact h2
    rw [List.cons_append, pyJoinSlash_cons r (rs ++ [name]) (by simp)]
    simp [String.append_assoc]

/-- Fixture site info for the C8 environment. -/
def c8Info : SiteInfo := { siteName := "S", siteId := "sid", webUrl := "u" }

/-- Fixture folder at the library root. -/
def c8Folder : Item := { id := "fX", name := "folderX", folder := true }

/-- Fixture file inside the folder. -/
def c8File : Item := { id := "F", name := "file.txt" }

/-- Fixture environment for C8: root lists one folder, the folder
lists one text file with empty content. -/
def c8Env : Env :=
  { listChildren := fun _ _ oid =>
      match oid with
      | none => .ok [c8Folder]
      | some i => if i = "fX" then .ok [c8File] else .ok []
    getContent := fun _ _ _ => .ok []
    parsers := errorParsers
    getSiteInfo := fun _ => .ok c8Info
    listLibraries := fun _ => .ok [{ id := "d", name := "Docs" }]
    now := "T" }

/-- Claim C8: a record path is the accumulated folder names joined
with the file name by slashes, never carries a leading slash, its
fileExtension is the lower-cased suffix after the last dot of the
name, and the concrete walk of root/folderX/file.txt produces the
record with path folderX/file.txt and extension txt. -/
theorem C8_path_join_and_extension :
    (∀ (dirs : List String) (name : String),
        (∀ d ∈ dirs, d.data ≠ [] ∧ d.data.head? ≠ some '/') →
        name.data.head? ≠ some '/' →
        childPath (dirs.foldl childPath "") name = pyJoinSlash (dirs ++ [name]))
    ∧ (∀ rel n : String, (childPath rel n).data.head? ≠ some '/')
    ∧ (∀ name : String, containsDot name = true →
        fileExtensionOf name = pyLower (suffixAfterLastDot name))
    ∧ ((sync_library_children c8Env 2 "s" "d" none "" c8Info "Docs" "Site/Docs").1.map
          (fun w => (w.2.sharePointPath, w.2.fileExtension)))
        = [("folderX/file.txt", "txt")] := by
  refine ⟨?_, ?_, ?_, rfl⟩
  · intro dirs name hd hname
    cases dirs with
    | nil =>
      simp only [List.foldl_nil, List.nil_append]
      rw [childPath_empty name hname]
      rfl
    | cons d rest =>
      have hdh := hd d (List.mem_cons_self d rest)
      rw [List.foldl_cons, childPath_empty d hdh.2,
        foldl_childPath_join rest d name hdh.1 hdh.2,
        List.cons_append, pyJoinSlash_cons d (rest ++ [name]) (by simp)]
  · intro rel n
    rw [childPath_data]
    exact head?_dropWhile_slash _
  · intro name h
    rw [fileExtensionOf, if_pos (by simp [h])]
    show pyLower (String.mk ((splitOnDot name.data).getLastD []))
      = pyLower (suffixAfterLastDot name)
    rw [suffixAfterLastDot]
    exact congrArg pyLower
      (congrArg String.mk (getLastD_splitOnDot name.data))

/-- Witness for C8 at the concrete folder and file names. -/
theorem C8_path_join_and_extension_witness :
    childPath ((["folderX"] : List String).foldl childPath "") "file.txt"
      = pyJoinSlash ["folderX", "file.txt"]
    ∧ fileExtensionOf "file.txt" = pyLower (suffixAfterLastDot "file.txt") :=
  ⟨C8_path_join_and_extension.1 ["folderX"] "file.txt" (by decide) (by decide),
    C8_path_join_and_extension.2.2.1 "file.txt" rfl⟩

end RagPipeline
